import Mathlib

/-!
Verification development for the `date-helper` library (dayjs-based
timezone-aware date utilities).

The TypeScript source is shallowly embedded here:

* Civil (proleptic Gregorian) calendar arithmetic — the semantics of the
  calendar computations that `dayjs` (the external calendar library the
  repository builds on) performs — is modelled with the standard
  days-from-civil / civil-from-days algorithms over `Int`, with milliseconds
  since the Unix epoch as the absolute time line.
* A resolved dayjs value is a `Zoned`: the absolute instant in epoch
  milliseconds together with the UTC offset (minutes) the value reports.
  Its civil fields are read off `localMs`, the wall-clock milliseconds.
* The timezone database ("the oracle" in the spec) is an abstract
  `ZoneOracle`: offset-at-instant and instant-from-wall-clock-fields, the two
  capabilities the spec grants the external collaborator.
* A raw `string | Date` argument is classified by shape into `RawInput`
  (date-only string, naive date-time string, date-time with explicit
  offset/Z, native date value, unparseable string).  An unparseable string
  resolves to `none` — dayjs's Invalid Date.
* JavaScript `NaN` results of numeric getters are modelled by `Option`
  (`none` = NaN); thrown exceptions by `Except`.

Each library function is translated from its TypeScript body; the relevant
file is named in its doc comment.
-/

/-! ## Civil calendar core (the calendar arithmetic dayjs performs) -/

/-- Milliseconds in a civil day. -/
def msPerDay : Int := 86400000

/-- Gregorian leap-year test. -/
def isLeapYear (y : Int) : Bool :=
  (y.emod 4 == 0 && y.emod 100 != 0) || y.emod 400 == 0

/-- Number of days in month `m` (1–12) of year `y`. -/
def daysInMonth (y m : Int) : Int :=
  if m = 2 then (if isLeapYear y then 29 else 28)
  else if m = 4 ∨ m = 6 ∨ m = 9 ∨ m = 11 then 30
  else 31

/-- Day number (days since 1970-01-01) of the civil date `y-m-d`,
by the standard era-based algorithm. -/
def daysFromCivil (y m d : Int) : Int :=
  let yy := if m ≤ 2 then y - 1 else y
  let era := yy.fdiv 400
  let yoe := yy - era * 400
  let mp := (m + 9).emod 12
  let doy := (153 * mp + 2).fdiv 5 + d - 1
  let doe := yoe * 365 + yoe.fdiv 4 - yoe.fdiv 100 + doy
  era * 146097 + doe - 719468

/-- Civil date `(y, m, d)` of a day number, inverse of `daysFromCivil`. -/
def civilFromDays (z : Int) : Int × Int × Int :=
  let z' := z + 719468
  let era := z'.fdiv 146097
  let doe := z' - era * 146097
  let yoe := (doe - doe.fdiv 1460 + doe.fdiv 36524 - doe.fdiv 146096).fdiv 365
  let yy := yoe + era * 400
  let doy := doe - (365 * yoe + yoe.fdiv 4 - yoe.fdiv 100)
  let mp := (5 * doy + 2).fdiv 153
  let d := doy - (153 * mp + 2).fdiv 5 + 1
  let m := if mp < 10 then mp + 3 else mp - 9
  (if m ≤ 2 then yy + 1 else yy, m, d)

/-- Weekday of a day number, `0` = Sunday … `6` = Saturday
(1970-01-01 was a Thursday, weekday 4).  This is JavaScript `Date.getDay`
and dayjs `.day()`. -/
def weekdayOfDays (z : Int) : Int := (z + 4).emod 7

/-- Day number holding wall-clock millisecond `t`. -/
def dayNumOfMs (t : Int) : Int := t.fdiv msPerDay

/-- Time of day in milliseconds (`0 ≤ _ < msPerDay`). -/
def todOfMs (t : Int) : Int := t.emod msPerDay

/-- Wall-clock milliseconds of the civil date-time `y-m-d h:mi:s.ms`. -/
def msOfCivil (y m d h mi s ms : Int) : Int :=
  ((daysFromCivil y m d * 24 + h) * 60 + mi) * 60000 + s * 1000 + ms

/-- Civil year of a wall-clock millisecond (dayjs `.year()`). -/
def yearOfMs (t : Int) : Int := (civilFromDays (dayNumOfMs t)).1

/-- Civil month 1–12 of a wall-clock millisecond (dayjs `.month() + 1`). -/
def monthOfMs (t : Int) : Int := (civilFromDays (dayNumOfMs t)).2.1

/-- Civil day-of-month of a wall-clock millisecond (dayjs `.date()`). -/
def domOfMs (t : Int) : Int := (civilFromDays (dayNumOfMs t)).2.2

/-- Hour 0–23 of a wall-clock millisecond. -/
def hourOfMs (t : Int) : Int := (todOfMs t).fdiv 3600000

/-- Minute 0–59 of a wall-clock millisecond. -/
def minuteOfMs (t : Int) : Int := ((todOfMs t).fdiv 60000).emod 60

/-- Second 0–59 of a wall-clock millisecond. -/
def secondOfMs (t : Int) : Int := ((todOfMs t).fdiv 1000).emod 60

/-- Millisecond 0–999 of a wall-clock millisecond. -/
def milliOfMs (t : Int) : Int := (todOfMs t).emod 1000

/-- Weekday 0–6 of a wall-clock millisecond (dayjs `.day()`). -/
def weekdayOfMs (t : Int) : Int := weekdayOfDays (dayNumOfMs t)

example : daysFromCivil 1970 1 1 = 0 := by decide
example : civilFromDays 0 = (1970, 1, 1) := by decide
example : weekdayOfDays 0 = 4 := by decide
example : civilFromDays (daysFromCivil 2025 2 15) = (2025, 2, 15) := by decide
example : weekdayOfDays (daysFromCivil 2025 2 15) = 6 := by decide

/-! ## TimePoint resolution (`core.ts` / `withTimezone`, dayjs parsing) -/

/-- The timezone oracle: the two capabilities the external timezone database
supplies.  `offAt` returns the zone's UTC offset in minutes at an absolute
instant; `instantOfWall` returns the absolute instant the zone assigns to a
naive wall-clock millisecond value (resolving DST gaps/folds by its own
convention — nothing about that convention is assumed here unless a theorem
states it). -/
structure ZoneOracle where
  offAt : Int → Int
  instantOfWall : Int → Int

/-- The UTC zone: offset 0, wall clock equal to the absolute time line. -/
def ZoneOracle.utc : ZoneOracle := ⟨fun _ => 0, fun w => w⟩

/-- A resolved dayjs value: absolute instant in epoch milliseconds plus the
UTC offset (minutes) in which its civil fields are reported. -/
structure Zoned where
  ms : Int
  off : Int
deriving DecidableEq

/-- Wall-clock milliseconds of a resolved value; civil fields are read from
this. -/
def localMs (z : Zoned) : Int := z.ms + z.off * 60000

/-- Shape classification of a raw `string | Date` argument.
`dateOnly` is a bare `YYYY-MM-DD` string; `dateTime` a naive date-time
string without offset; `dateTimeOff` carries an explicit offset in minutes
(`Z` = offset 0); `native` is a native date value (or an already-resolved
dayjs value), identified by its absolute instant; `invalid` is any
unparseable string. -/
inductive RawInput
  | dateOnly (y m d : Int)
  | dateTime (y m d h mi s ms : Int)
  | dateTimeOff (y m d h mi s ms off : Int)
  | native (ms : Int)
  | invalid
deriving DecidableEq

/-- Parsing a raw input in zone `z` (dayjs `dayjs(date)` with `z` the system
local zone, `dayjs.tz(date, z)` for a named zone, `dayjs.utc(date)` for
`ZoneOracle.utc`): naive strings are interpreted as wall-clock time in `z`,
explicit offsets fix the instant directly, native values are already
instants; unparseable input gives Invalid Date (`none`). -/
def resolve (inp : RawInput) (z : ZoneOracle) : Option Zoned :=
  match inp with
  | .invalid => none
  | .native t => some ⟨t, z.offAt t⟩
  | .dateTimeOff y m d h mi s ms off =>
      let t := msOfCivil y m d h mi s ms - off * 60000
      some ⟨t, z.offAt t⟩
  | .dateOnly y m d =>
      let t := z.instantOfWall (msOfCivil y m d 0 0 0 0)
      some ⟨t, z.offAt t⟩
  | .dateTime y m d h mi s ms =>
      let t := z.instantOfWall (msOfCivil y m d h mi s ms)
      some ⟨t, z.offAt t⟩

/-- `core.ts` `withTimezone`: `dayjs(date)` in the local zone, then — when a
timezone is given — `.tz(tz)`, which keeps the instant and re-reports the
civil fields with the named zone's offset. -/
def withTimezone (inp : RawInput) (localZ : ZoneOracle)
    (tz : Option ZoneOracle) : Option Zoned :=
  match resolve inp localZ, tz with
  | none, _ => none
  | some z, none => some z
  | some z, some zo => some ⟨z.ms, zo.offAt z.ms⟩

/-! ## Formatting (`formatting.ts`) -/

/-- The string a dayjs `format` call renders, one constructor per render
shape.  `invalidDate` is the literal `"Invalid Date"` string dayjs formats
an invalid value to; `ymd` is a rendered `"YYYY-MM-DD"`; `ymdhms` a rendered
`"YYYY-MM-DD HH:mm:ss"`.  Rendering of distinct civil fields yields distinct
strings and never the `"Invalid Date"` string, which the constructor
distinctness of this type models. -/
inductive FmtOut
  | invalidDate
  | ymd (y m d : Int)
  | ymdhms (y m d h mi s : Int)
deriving DecidableEq

/-- `formatting.ts` `formatDate` with the default `"YYYY-MM-DD"` format. -/
def formatDate (inp : RawInput) (localZ : ZoneOracle)
    (tz : Option ZoneOracle) : FmtOut :=
  match withTimezone inp localZ tz with
  | none => .invalidDate
  | some z => .ymd (yearOfMs (localMs z)) (monthOfMs (localMs z)) (domOfMs (localMs z))

/-- `formatting.ts` `formatDateTime` (`"YYYY-MM-DD HH:mm:ss"`). -/
def formatDateTime (inp : RawInput) (localZ : ZoneOracle)
    (tz : Option ZoneOracle) : FmtOut :=
  match withTimezone inp localZ tz with
  | none => .invalidDate
  | some z => .ymdhms (yearOfMs (localMs z)) (monthOfMs (localMs z))
      (domOfMs (localMs z)) (hourOfMs (localMs z)) (minuteOfMs (localMs z))
      (secondOfMs (localMs z))

/-! ## Comparisons (`comparison.ts`) -/

/-- `comparison.ts` `isSameDay`: compares the two `"YYYY-MM-DD"`-formatted
strings for equality (so two invalid dates both format to `"Invalid Date"`
and compare equal). -/
def isSameDay (d1 d2 : RawInput) (localZ : ZoneOracle)
    (tz : Option ZoneOracle) : Bool :=
  formatDate d1 localZ tz = formatDate d2 localZ tz

/-- `comparison.ts` `isBefore`: dayjs compares the absolute instants; a
comparison against `NaN` (an invalid date's value) is false. -/
def isBefore (d1 d2 : RawInput) (localZ : ZoneOracle)
    (tz : Option ZoneOracle) : Bool :=
  match withTimezone d1 localZ tz, withTimezone d2 localZ tz with
  | some a, some b => a.ms < b.ms
  | _, _ => false

/-- `comparison.ts` `isAfter`. -/
def isAfter (d1 d2 : RawInput) (localZ : ZoneOracle)
    (tz : Option ZoneOracle) : Bool :=
  match withTimezone d1 localZ tz, withTimezone d2 localZ tz with
  | some a, some b => b.ms < a.ms
  | _, _ => false

/-- `comparison.ts` `isWeekend`: `day() === 0 || day() === 6`; on an invalid
date `day()` is `NaN` and both equality tests are false, which the `none`
branch models. -/
def isWeekend (inp : RawInput) (localZ : ZoneOracle)
    (tz : Option ZoneOracle) : Bool :=
  match withTimezone inp localZ tz with
  | none => false
  | some z => weekdayOfMs (localMs z) = 0 ∨ weekdayOfMs (localMs z) = 6

/-- `comparison.ts` `isWeekday`: `!isWeekend(date, tz)`. -/
def isWeekday (inp : RawInput) (localZ : ZoneOracle)
    (tz : Option ZoneOracle) : Bool :=
  !(isWeekend inp localZ tz)

example : isWeekend (.dateOnly 2025 2 15) ZoneOracle.utc none = true := by decide
example : isWeekday (.dateOnly 2025 2 17) ZoneOracle.utc none = true := by decide
example : isSameDay .invalid .invalid ZoneOracle.utc none = true := by decide

/-! ## ISO week numbering (`isoFiscal.ts`, dayjs `isoWeek` plugin)

`getISOWeek` delegates to the dayjs `isoWeek` plugin, which implements the
ISO-8601 week calendar (weeks Monday–Sunday, week 1 contains the year's
first Thursday).  The plugin is modelled by the standard ISO-8601 week
algorithm below. -/

/-- ISO weekday of a day number, Monday = 1 … Sunday = 7. -/
def isoWeekdayOfDays (z : Int) : Int := (z + 3).emod 7 + 1

/-- 1-based ordinal day of the year of `y-m-d`. -/
def dayOfYear (y m d : Int) : Int :=
  daysFromCivil y m d - daysFromCivil y 1 1 + 1

/-- Number of ISO weeks in year `y`: 53 when January 1 or December 31 of `y`
is a Thursday, else 52. -/
def isoWeeksInYear (y : Int) : Int :=
  if weekdayOfDays (daysFromCivil y 1 1) = 4 ∨ weekdayOfDays (daysFromCivil y 12 31) = 4
  then 53 else 52

/-- ISO-8601 week number (1–53) of the civil date `y-m-d`. -/
def isoWeekOfCivil (y m d : Int) : Int :=
  let w := (10 + dayOfYear y m d - isoWeekdayOfDays (daysFromCivil y m d)).fdiv 7
  if w < 1 then isoWeeksInYear (y - 1)
  else if isoWeeksInYear y < w then 1
  else w

/-- ISO-8601 week-year of the civil date `y-m-d`: the year whose week
numbering the date belongs to. -/
def isoWeekYearOfCivil (y m d : Int) : Int :=
  let w := (10 + dayOfYear y m d - isoWeekdayOfDays (daysFromCivil y m d)).fdiv 7
  if w < 1 then y - 1
  else if isoWeeksInYear y < w then y + 1
  else y

/-- ISO week number of a wall-clock millisecond. -/
def isoWeekOfMs (t : Int) : Int :=
  match civilFromDays (dayNumOfMs t) with
  | (y, m, d) => isoWeekOfCivil y m d

/-- `isoFiscal.ts` `getISOWeek`: `dayjs.tz(date, tz).isoWeek()` when a
timezone is given (the naive input is parsed in that zone), otherwise
`dayjs(date).isoWeek()` in the local zone. -/
def getISOWeek (inp : RawInput) (localZ : ZoneOracle)
    (tz : Option ZoneOracle) : Option Int :=
  match tz with
  | some zo => (resolve inp zo).map fun z => isoWeekOfMs (localMs z)
  | none => (resolve inp localZ).map fun z => isoWeekOfMs (localMs z)

/-- `isoFiscal.ts` `getISOYear`: implemented as `withTimezone(date, tz).year()`
— it returns the civil year, not the ISO week-year. -/
def getISOYear (inp : RawInput) (localZ : ZoneOracle)
    (tz : Option ZoneOracle) : Option Int :=
  (withTimezone inp localZ tz).map fun z => yearOfMs (localMs z)

/-- `dateHelper.ts` `getYear`: `withTimezone(date, tz).year()`. -/
def getYear (inp : RawInput) (localZ : ZoneOracle)
    (tz : Option ZoneOracle) : Option Int :=
  (withTimezone inp localZ tz).map fun z => yearOfMs (localMs z)

example : getISOWeek (.dateOnly 2025 2 15) ZoneOracle.utc none = some 7 := by decide
example : isoWeekOfCivil 2024 12 31 = 1 := by decide
example : isoWeekYearOfCivil 2024 12 31 = 2025 := by decide
example : isoWeekYearOfCivil 2026 12 28 = 2026 := by decide

/-! ## Month/year arithmetic (`math.ts`, dayjs `add`) -/

/-- dayjs month arithmetic with the month-end clamp: dayjs `add(n, "month")`
sets the day to 1, shifts the month (carrying into the year), then sets the
day back to `min(originalDay, daysInMonth(target))`. -/
def monthAddCivil (y m d n : Int) : Int × Int × Int :=
  let t := m - 1 + n
  let y' := y + t.fdiv 12
  let m' := t.emod 12 + 1
  (y', m', min d (daysInMonth y' m'))

/-- dayjs year arithmetic: `add(n, "year")` shifts the year and clamps the
day the same way (Feb 29 → Feb 28 in a non-leap target year). -/
def yearAddCivil (y m d n : Int) : Int × Int × Int :=
  (y + n, m, min d (daysInMonth (y + n) m))

/-- Month shift on a wall-clock millisecond: civil date shifted with the
clamp, time of day preserved unchanged. -/
def addMonthsWall (L n : Int) : Int :=
  match civilFromDays (dayNumOfMs L) with
  | (y, m, d) =>
    match monthAddCivil y m d n with
    | (y', m', d') => daysFromCivil y' m' d' * msPerDay + todOfMs L

/-- Year shift on a wall-clock millisecond, time of day preserved. -/
def addYearsWall (L n : Int) : Int :=
  match civilFromDays (dayNumOfMs L) with
  | (y, m, d) =>
    match yearAddCivil y m d n with
    | (y', m', d') => daysFromCivil y' m' d' * msPerDay + todOfMs L

/-- `math.ts` `addMonths`: `withTimezone(date, tz).add(months, "month")`.
The result is given by its wall-clock milliseconds (its civil fields); the
final civil-fields-to-instant re-anchoring goes through the zone oracle and
does not change the fields. -/
def addMonths (inp : RawInput) (months : Int) (localZ : ZoneOracle)
    (tz : Option ZoneOracle) : Option Int :=
  (withTimezone inp localZ tz).map fun z => addMonthsWall (localMs z) months

/-- `math.ts` `addYears`: `withTimezone(date, tz).add(years, "year")`. -/
def addYears (inp : RawInput) (years : Int) (localZ : ZoneOracle)
    (tz : Option ZoneOracle) : Option Int :=
  (withTimezone inp localZ tz).map fun z => addYearsWall (localMs z) years

example : monthAddCivil 2025 1 31 1 = (2025, 2, 28) := by decide
example : yearAddCivil 2024 2 29 1 = (2025, 2, 28) := by decide
example : yearAddCivil 2024 2 29 4 = (2028, 2, 29) := by decide

/-! ## Ranges (`ranges.ts`) -/

/-- Start of day on wall-clock milliseconds: time fields zeroed. -/
def startOfDayWall (L : Int) : Int := msPerDay * dayNumOfMs L

/-- End of day on wall-clock milliseconds: time set to 23:59:59.999. -/
def endOfDayWall (L : Int) : Int := msPerDay * dayNumOfMs L + (msPerDay - 1)

/-- `ranges.ts` `startOfWeek` at the wall-clock level:
`diff = (day < weekStart ? 7 : 0) + day - weekStart`, subtract `diff` days,
then `startOf("day")`. -/
def startOfWeekWall (L weekStart : Int) : Int :=
  let day := weekdayOfMs L
  let diff := (if day < weekStart then 7 else 0) + day - weekStart
  startOfDayWall (L - diff * msPerDay)

/-- `ranges.ts` `endOfWeek`: `startOfWeek(date, tz, weekStart).add(6, "day").endOf("day")`. -/
def endOfWeekWall (L weekStart : Int) : Int :=
  endOfDayWall (startOfWeekWall L weekStart + 6 * msPerDay)

/-- `ranges.ts` `startOfWeek` on a raw input, reported by the result's
wall-clock milliseconds. -/
def startOfWeek (inp : RawInput) (localZ : ZoneOracle)
    (tz : Option ZoneOracle) (weekStart : Int) : Option Int :=
  (withTimezone inp localZ tz).map fun z => startOfWeekWall (localMs z) weekStart

/-- `ranges.ts` `endOfWeek` on a raw input. -/
def endOfWeek (inp : RawInput) (localZ : ZoneOracle)
    (tz : Option ZoneOracle) (weekStart : Int) : Option Int :=
  (withTimezone inp localZ tz).map fun z => endOfWeekWall (localMs z) weekStart

/-- `startOf("day")` of a resolved value in zone `zo`: wall-clock midnight of
the value's civil day, re-anchored to an absolute instant by the oracle. -/
def startOfDayZoned (zo : ZoneOracle) (x : Zoned) : Zoned :=
  let w := startOfDayWall (localMs x)
  ⟨zo.instantOfWall w, zo.offAt (zo.instantOfWall w)⟩

/-- dayjs `d1.diff(d2, "day")`: `absFloor((diff - zoneDelta) / msPerDay)`
with `diff = d1 - d2` in instant milliseconds and
`zoneDelta = (d2.utcOffset() - d1.utcOffset()) * 60000`; `absFloor` rounds
toward zero, which is `Int.tdiv`. -/
def dayjsDiffDays (x y : Zoned) : Int :=
  Int.tdiv ((x.ms - y.ms) - (y.off - x.off) * 60000) msPerDay

/-- `ranges.ts` `daysBetween`: both arguments taken at `startOf("day")`, then
`Math.abs(d1.diff(d2, "day"))`.  An invalid argument makes the result `NaN`
(`none`). -/
def daysBetween (d1 d2 : RawInput) (localZ : ZoneOracle)
    (tz : Option ZoneOracle) : Option Nat :=
  let zo := tz.getD localZ
  match withTimezone d1 localZ tz, withTimezone d2 localZ tz with
  | some a, some b =>
      some (dayjsDiffDays (startOfDayZoned zo a) (startOfDayZoned zo b)).natAbs
  | _, _ => none

example : daysBetween (.dateOnly 2025 2 15) (.dateOnly 2025 2 17)
    ZoneOracle.utc none = some 2 := by decide

/-! ## Unix / UTC conversion (`unixUtc.ts`) -/

/-- A `date` argument at a JavaScript call site: `missing` is a falsy
`null`/`undefined` argument, `given` an actual `string | Date` value. -/
inductive DateArg
  | missing
  | given (r : RawInput)

/-- A `timestamp` argument at a JavaScript call site, classified by
`typeof`: only `num` is a number.  (Claim-relevant timestamps are integral;
the embedding carries `Int`.) -/
inductive TsArg
  | num (t : Int)
  | strArg
  | nullArg
  | undefArg

/-- The `tz?: string` argument: absent, the literal `"UTC"`, or another
recognized zone name (carrying that zone's oracle). -/
inductive TzParam
  | noTz
  | utcTz
  | zoneTz (zo : ZoneOracle)

/-- `unixUtc.ts` `toUnixTimestamp`: throws on a falsy `date` argument;
otherwise parses with `dayjs.utc` / `dayjs.tz` / `dayjs` according to `tz`
and takes `.unix()`, i.e. `Math.floor(valueOf() / 1000)` — `NaN` (`none`)
when the date string was unparseable. -/
def toUnixTimestamp (date : DateArg) (localZ : ZoneOracle)
    (tz : TzParam) : Except String (Option Int) :=
  match date with
  | .missing => .error "Invalid date: must be a valid date string or Date object"
  | .given r =>
    let resolved :=
      match tz with
      | .utcTz => resolve r ZoneOracle.utc
      | .zoneTz zo => resolve r zo
      | .noTz => resolve r localZ
    .ok (resolved.map fun z => z.ms.fdiv 1000)

/-- `unixUtc.ts` `fromUnixTimestamp`: throws when `typeof timestamp` is not
`"number"`; otherwise `dayjs.unix(timestamp)` (instant `timestamp * 1000`)
reported in UTC, the named zone, or the local zone. -/
def fromUnixTimestamp (ts : TsArg) (localZ : ZoneOracle)
    (tz : TzParam) : Except String Zoned :=
  match ts with
  | .num t =>
    match tz with
    | .utcTz => .ok ⟨t * 1000, 0⟩
    | .zoneTz zo => .ok ⟨t * 1000, zo.offAt (t * 1000)⟩
    | .noTz => .ok ⟨t * 1000, localZ.offAt (t * 1000)⟩
  | _ => .error "Invalid timestamp: must be a number"

/-- Whether a raw input is a bare `YYYY-MM-DD` string — the shape the
`/^\d\x7b4\x7d-\d\x7b2\x7d-\d\x7b2\x7d$/` test in `toUTC` matches. -/
def RawInput.isDateOnly : RawInput → Bool
  | .dateOnly _ _ _ => true
  | _ => false

/-- `unixUtc.ts` `toUTC`: a bare date-only string is parsed with
`dayjs.utc(date)` (midnight UTC, no conversion); every other input is parsed
in the local zone and projected to UTC (`dayjs(date).utc()`), keeping the
instant and reporting civil fields at offset 0. -/
def toUTC (date : RawInput) (localZ : ZoneOracle) : Option Zoned :=
  if date.isDateOnly then
    (resolve date ZoneOracle.utc).map fun z => ⟨z.ms, 0⟩
  else
    (resolve date localZ).map fun z => ⟨z.ms, 0⟩

example : (toUTC (.dateOnly 2025 5 2) ZoneOracle.utc).map localMs
    = some (msOfCivil 2025 5 2 0 0 0 0) := by decide

/-! ## Claim theorems -/

/-- **C1** (code bug).  `getISOYear` is implemented as `.year()` and returns
the civil year, never the ISO-8601 week-year: at `2024-12-30` (ISO week 1 of
2025) it returns `2024` while the ISO week-year is `2025`; at `2027-01-01`
(last ISO week of 2026) it returns `2027` while the ISO week-year is `2026`;
and it is identically equal to `getYear`, so the two can never differ. -/
theorem getISOYear_returns_civil_year :
    getISOYear (.dateOnly 2024 12 30) ZoneOracle.utc none = some 2024 ∧
    isoWeekYearOfCivil 2024 12 30 = 2025 ∧
    getISOYear (.dateOnly 2027 1 1) ZoneOracle.utc none = some 2027 ∧
    isoWeekYearOfCivil 2027 1 1 = 2026 ∧
    ∀ (inp : RawInput) (localZ : ZoneOracle) (tz : Option ZoneOracle),
      getISOYear inp localZ tz = getYear inp localZ tz :=
  ⟨by decide, by decide, by decide, by decide, fun _ _ _ => rfl⟩

/-- **C5** (counterexample).  The claim asserts
`getISOWeek("2024-12-31") == 53`; the code (ISO-8601 via the dayjs `isoWeek`
plugin) returns `1`, because 2024-12-31 lies in ISO week 1 of 2025. -/
theorem getISOWeek_2024_12_31_not_53 :
    getISOWeek (.dateOnly 2024 12 31) ZoneOracle.utc none ≠ some 53 := by
  decide

/-- **C5** (amended).  `getISOWeek` implements ISO-8601 week numbering:
`getISOWeek("2024-12-31") == 1` (the date lies in ISO week 1 of 2025 — 2024
has only 52 ISO weeks) and `getISOWeek("2025-01-01") == 1`; and for every
year from 2020 to 2030, a 53-week year is reported exactly when January 1 or
December 31 of that year is a Thursday, with January 1 and December 31
consistently assigned either to a week of their own year or to the
appropriate week of the adjacent ISO year. -/
theorem getISOWeek_iso8601_boundaries :
    getISOWeek (.dateOnly 2024 12 31) ZoneOracle.utc none = some 1 ∧
    getISOWeek (.dateOnly 2025 1 1) ZoneOracle.utc none = some 1 ∧
    ∀ k : Fin 11,
      (isoWeekOfCivil (2020 + (k : Int)) 12 28 = 53 ↔
        (weekdayOfDays (daysFromCivil (2020 + (k : Int)) 1 1) = 4 ∨
         weekdayOfDays (daysFromCivil (2020 + (k : Int)) 12 31) = 4)) ∧
      ((isoWeekYearOfCivil (2020 + (k : Int)) 1 1 = 2020 + (k : Int) ∧
          isoWeekOfCivil (2020 + (k : Int)) 1 1 = 1) ∨
       (isoWeekYearOfCivil (2020 + (k : Int)) 1 1 = 2020 + (k : Int) - 1 ∧
          isoWeekOfCivil (2020 + (k : Int)) 1 1 = isoWeeksInYear (2020 + (k : Int) - 1))) ∧
      ((isoWeekYearOfCivil (2020 + (k : Int)) 12 31 = 2020 + (k : Int) ∧
          isoWeekOfCivil (2020 + (k : Int)) 12 31 = isoWeeksInYear (2020 + (k : Int))) ∨
       (isoWeekYearOfCivil (2020 + (k : Int)) 12 31 = 2020 + (k : Int) + 1 ∧
          isoWeekOfCivil (2020 + (k : Int)) 12 31 = 1)) := by
  exact ⟨by decide, by decide, by decide⟩

/-- **C10.**  `isWeekday` is defined as the boolean negation of `isWeekend`
for every input and timezone; on an unparseable input, whose weekday
extraction is the not-a-number sentinel, `isWeekend` is `false` and hence
`isWeekday` is `true`. -/
theorem isWeekday_negation_of_isWeekend :
    ∀ (inp : RawInput) (localZ : ZoneOracle) (tz : Option ZoneOracle),
      isWeekday inp localZ tz = !(isWeekend inp localZ tz) ∧
      isWeekend .invalid localZ tz = false ∧
      isWeekday .invalid localZ tz = true :=
  fun _ _ _ => ⟨rfl, rfl, rfl⟩

/-- **C3.**  `toUnixTimestamp` throws on a missing (`null`/`undefined`)
date argument and `fromUnixTimestamp` throws on a non-numeric (string, null,
undefined) timestamp argument, while an unparseable date string degrades
softly: `toUnixTimestamp` then returns `NaN` without throwing, and a numeric
timestamp never throws. -/
theorem unix_hard_error_contract :
    (∀ (localZ : ZoneOracle) (tz : TzParam),
      toUnixTimestamp .missing localZ tz
        = .error "Invalid date: must be a valid date string or Date object") ∧
    (∀ (localZ : ZoneOracle) (tz : TzParam),
      fromUnixTimestamp .strArg localZ tz
          = .error "Invalid timestamp: must be a number" ∧
      fromUnixTimestamp .nullArg localZ tz
          = .error "Invalid timestamp: must be a number" ∧
      fromUnixTimestamp .undefArg localZ tz
          = .error "Invalid timestamp: must be a number") ∧
    (∀ (localZ : ZoneOracle) (tz : TzParam),
      toUnixTimestamp (.given .invalid) localZ tz = .ok none) ∧
    (∀ (localZ : ZoneOracle) (tz : TzParam) (t : Int),
      ∃ z, fromUnixTimestamp (.num t) localZ tz = .ok z) := by
  refine ⟨fun _ _ => rfl, ?_, ?_, ?_⟩
  · intro localZ tz
    cases tz <;> exact ⟨rfl, rfl, rfl⟩
  · intro localZ tz
    cases tz <;> rfl
  · intro localZ tz t
    cases tz <;> exact ⟨_, rfl⟩

/-- **C7.**  Round trip through UTC: for every integer `t`, converting the
Unix timestamp `t` to a date in UTC with `fromUnixTimestamp` and back with
`toUnixTimestamp` through UTC returns `t`. -/
theorem unix_roundtrip_utc :
    ∀ (t : Int) (localZ : ZoneOracle),
      ∃ z, fromUnixTimestamp (.num t) localZ .utcTz = .ok z ∧
        toUnixTimestamp (.given (.native z.ms)) localZ .utcTz = .ok (some t) := by
  intro t localZ
  refine ⟨⟨t * 1000, 0⟩, rfl, ?_⟩
  show Except.ok (some ((t * 1000).fdiv 1000)) = .ok (some t)
  rw [Int.mul_fdiv_cancel t (by decide)]

/-- **C2** (counterexample).  The claim says every boolean comparison
returns `false` on unparseable input; in fact `isWeekday` returns `true`
(it is the negation of `isWeekend`), and `isSameDay` of two unparseable
inputs returns `true` (both sides format to the same `"Invalid Date"`
string). -/
theorem invalid_comparisons_not_all_false :
    isWeekday .invalid ZoneOracle.utc none = true ∧
    isSameDay .invalid .invalid ZoneOracle.utc none = true := by
  decide

/-- **C2** (amended).  Unparseable input never raises and degrades softly:
`isBefore`, `isAfter` and `isWeekend` return `false` for every combination
with an unparseable argument, `formatDate` and `formatDateTime` return the
literal `"Invalid Date"` marker; but `isWeekday` returns `true` on an
unparseable input, and `isSameDay` returns `false` only when exactly one
argument is unparseable — with two unparseable arguments it returns `true`. -/
theorem invalid_input_soft_propagation :
    ∀ (localZ : ZoneOracle) (tz : Option ZoneOracle) (d : RawInput),
      formatDate .invalid localZ tz = .invalidDate ∧
      formatDateTime .invalid localZ tz = .invalidDate ∧
      isBefore .invalid d localZ tz = false ∧
      isBefore d .invalid localZ tz = false ∧
      isAfter .invalid d localZ tz = false ∧
      isAfter d .invalid localZ tz = false ∧
      isWeekend .invalid localZ tz = false ∧
      isWeekday .invalid localZ tz = true ∧
      isSameDay .invalid .invalid localZ tz = true ∧
      (withTimezone d localZ tz ≠ none →
        isSameDay .invalid d localZ tz = false ∧
        isSameDay d .invalid localZ tz = false) := by
  intro localZ tz d
  have hinv : withTimezone .invalid localZ tz = none := rfl
  refine ⟨rfl, rfl, rfl, ?_, rfl, ?_, rfl, rfl, rfl, ?_⟩
  · simp only [isBefore, hinv]
    cases withTimezone d localZ tz <;> rfl
  · simp only [isAfter, hinv]
    cases withTimezone d localZ tz <;> rfl
  · intro hne
    cases h : withTimezone d localZ tz with
    | none => exact absurd h hne
    | some z =>
        constructor <;> simp [isSameDay, formatDate, h, hinv]

/-- Witness for `invalid_input_soft_propagation` at the parseable date
`2025-02-15`. -/
theorem invalid_input_soft_propagation_witness :
    isSameDay .invalid (.dateOnly 2025 2 15) ZoneOracle.utc none = false ∧
    isSameDay (.dateOnly 2025 2 15) .invalid ZoneOracle.utc none = false :=
  (invalid_input_soft_propagation ZoneOracle.utc none
    (.dateOnly 2025 2 15)).2.2.2.2.2.2.2.2.2 (by decide)

/-- **C4.**  `toUTC` treats a bare `YYYY-MM-DD` string as already denoting
midnight UTC: for every local zone, `toUTC("2025-05-02")` has UTC civil
fields `2025-05-02 00:00:00.000`, and in general a date-only input maps to
the instant of `y-m-d` midnight on the UTC time line regardless of the local
zone; every other input shape is resolved to its instant in the local zone
first and then projected to UTC civil fields (offset 0, instant kept). -/
theorem toUTC_date_only_asymmetry :
    (∀ localZ : ZoneOracle,
      (toUTC (.dateOnly 2025 5 2) localZ).map (fun z =>
        (yearOfMs (localMs z), monthOfMs (localMs z), domOfMs (localMs z)))
        = some (2025, 5, 2) ∧
      (toUTC (.dateOnly 2025 5 2) localZ).map (fun z =>
        (hourOfMs (localMs z), minuteOfMs (localMs z), secondOfMs (localMs z),
         milliOfMs (localMs z)))
        = some (0, 0, 0, 0)) ∧
    (∀ (y m d : Int) (localZ : ZoneOracle),
      toUTC (.dateOnly y m d) localZ = some ⟨msOfCivil y m d 0 0 0 0, 0⟩) ∧
    (∀ (inp : RawInput) (localZ : ZoneOracle), inp.isDateOnly = false →
      toUTC inp localZ = (resolve inp localZ).map fun z => ⟨z.ms, 0⟩) := by
  refine ⟨fun localZ => ⟨?_, ?_⟩, fun y m d localZ => rfl, ?_⟩
  · exact (by decide :
      (toUTC (.dateOnly 2025 5 2) ZoneOracle.utc).map (fun z =>
        (yearOfMs (localMs z), monthOfMs (localMs z), domOfMs (localMs z)))
        = some (2025, 5, 2))
  · exact (by decide :
      (toUTC (.dateOnly 2025 5 2) ZoneOracle.utc).map (fun z =>
        (hourOfMs (localMs z), minuteOfMs (localMs z), secondOfMs (localMs z),
         milliOfMs (localMs z)))
        = some (0, 0, 0, 0))
  · intro inp localZ h
    simp [toUTC, h]

/-- Witness for `toUTC_date_only_asymmetry` at a native date value. -/
theorem toUTC_date_only_asymmetry_witness :
    toUTC (.native 123456789) ZoneOracle.utc
      = (resolve (.native 123456789) ZoneOracle.utc).map fun z => ⟨z.ms, 0⟩ :=
  toUTC_date_only_asymmetry.2.2 (.native 123456789) ZoneOracle.utc rfl

/-- **C6.**  Month and year arithmetic clamp the day of month to the last
valid day of the target month and leave the time of day unchanged:
`addMonths("2025-01-31", 1)` is civil `2025-02-28`,
`addYears("2024-02-29", 1)` is `2025-02-28`,
`addYears("2024-02-29", 4)` is `2028-02-29`; in general the resulting day of
month is `min(day, daysInMonth(target))` and the time-of-day milliseconds
are preserved. -/
theorem addMonths_addYears_clamp :
    ((addMonths (.dateOnly 2025 1 31) 1 ZoneOracle.utc none).map fun L =>
        (yearOfMs L, monthOfMs L, domOfMs L, todOfMs L)) = some (2025, 2, 28, 0) ∧
    ((addYears (.dateOnly 2024 2 29) 1 ZoneOracle.utc none).map fun L =>
        (yearOfMs L, monthOfMs L, domOfMs L, todOfMs L)) = some (2025, 2, 28, 0) ∧
    ((addYears (.dateOnly 2024 2 29) 4 ZoneOracle.utc none).map fun L =>
        (yearOfMs L, monthOfMs L, domOfMs L, todOfMs L)) = some (2028, 2, 29, 0) ∧
    (∀ y m d n : Int,
      (monthAddCivil y m d n).2.2
        = min d (daysInMonth (monthAddCivil y m d n).1 (monthAddCivil y m d n).2.1) ∧
      (yearAddCivil y m d n).2.2 = min d (daysInMonth (y + n) m)) ∧
    (∀ L n : Int, todOfMs (addMonthsWall L n) = todOfMs L ∧
      todOfMs (addYearsWall L n) = todOfMs L) := by
  refine ⟨by decide, by decide, by decide, fun y m d n => ⟨rfl, rfl⟩, ?_⟩
  intro L n
  constructor
  · show todOfMs (daysFromCivil _ _ _ * msPerDay + todOfMs L) = todOfMs L
    generalize daysFromCivil _ _ _ = K
    show (K * 86400000 + L % 86400000) % 86400000 = L % 86400000
    omega
  · show todOfMs (daysFromCivil _ _ _ * msPerDay + todOfMs L) = todOfMs L
    generalize daysFromCivil _ _ _ = K
    show (K * 86400000 + L % 86400000) % 86400000 = L % 86400000
    omega

/-- dayjs's day diff is antisymmetric: swapping the arguments negates both
the instant difference and the zone-delta correction, and truncation toward
zero commutes with negation. -/
theorem dayjsDiffDays_antisymm (x y : Zoned) :
    dayjsDiffDays x y = -(dayjsDiffDays y x) := by
  unfold dayjsDiffDays
  rw [← Int.neg_tdiv]
  congr 1
  ring

/-- **C8** (counterexample).  The claim quantifies over all date inputs, but
for an unparseable input `daysBetween` returns `NaN`, not `0`:
`daysBetween(a, a) == 0` fails when `a` is unparseable. -/
theorem daysBetween_invalid_not_zero :
    daysBetween .invalid .invalid ZoneOracle.utc none ≠ some 0 := by
  decide

/-- **C8** (amended).  `daysBetween` is symmetric for *all* inputs (both
sides are `NaN` when an argument is unparseable); for every *parseable* pair
the result is a non-negative integer (`some` of a `Nat`), `daysBetween(a, a)
== 0`, and the computation is at calendar-day granularity: both arguments
are truncated to start-of-day before differencing, so the result depends
only on the arguments' civil day numbers, never on their time of day.  For
an unparseable argument the result is the `NaN` sentinel (`none`). -/
theorem daysBetween_day_granularity :
    (∀ (d1 d2 : RawInput) (localZ : ZoneOracle) (tz : Option ZoneOracle),
      daysBetween d1 d2 localZ tz = daysBetween d2 d1 localZ tz) ∧
    (∀ (d : RawInput) (localZ : ZoneOracle) (tz : Option ZoneOracle),
      withTimezone d localZ tz ≠ none → daysBetween d d localZ tz = some 0) ∧
    (∀ (d1 d2 : RawInput) (localZ : ZoneOracle) (tz : Option ZoneOracle)
        (a b : Zoned),
      withTimezone d1 localZ tz = some a → withTimezone d2 localZ tz = some b →
      daysBetween d1 d2 localZ tz
        = some (dayjsDiffDays (startOfDayZoned (tz.getD localZ) a)
            (startOfDayZoned (tz.getD localZ) b)).natAbs) ∧
    (∀ (zo : ZoneOracle) (a a' : Zoned),
      dayNumOfMs (localMs a) = dayNumOfMs (localMs a') →
      startOfDayZoned zo a = startOfDayZoned zo a') := by
  refine ⟨?_, ?_, ?_, ?_⟩
  · intro d1 d2 localZ tz
    simp only [daysBetween]
    cases withTimezone d1 localZ tz with
    | none => cases withTimezone d2 localZ tz <;> rfl
    | some a =>
        cases withTimezone d2 localZ tz with
        | none => rfl
        | some b =>
            show some (dayjsDiffDays (startOfDayZoned (tz.getD localZ) a)
                  (startOfDayZoned (tz.getD localZ) b)).natAbs
                = some (dayjsDiffDays (startOfDayZoned (tz.getD localZ) b)
                  (startOfDayZoned (tz.getD localZ) a)).natAbs
            rw [dayjsDiffDays_antisymm, Int.natAbs_neg]
  · intro d localZ tz hne
    cases h : withTimezone d localZ tz with
    | none => exact absurd h hne
    | some a =>
        simp only [daysBetween, h]
        simp [dayjsDiffDays]
  · intro d1 d2 localZ tz a b h1 h2
    simp only [daysBetween, h1, h2]
  · intro zo a a' h
    simp only [startOfDayZoned, startOfDayWall, h]

/-- Witness for `daysBetween_day_granularity`: `daysBetween(a, a) == 0` at a
parseable date, the start-of-day truncation at two instants 5 ms and 6 ms
into the epoch day, and the day-granularity form on a concrete pair. -/
theorem daysBetween_day_granularity_witness :
    daysBetween (.dateOnly 2025 2 15) (.dateOnly 2025 2 15) ZoneOracle.utc none = some 0 ∧
    startOfDayZoned ZoneOracle.utc ⟨5, 0⟩ = startOfDayZoned ZoneOracle.utc ⟨6, 0⟩ ∧
    daysBetween (.dateOnly 2025 2 15) (.dateOnly 2025 2 17) ZoneOracle.utc none
      = some (dayjsDiffDays
          (startOfDayZoned ((none : Option ZoneOracle).getD ZoneOracle.utc)
            ⟨msOfCivil 2025 2 15 0 0 0 0, 0⟩)
          (startOfDayZoned ((none : Option ZoneOracle).getD ZoneOracle.utc)
            ⟨msOfCivil 2025 2 17 0 0 0 0, 0⟩)).natAbs :=
  ⟨daysBetween_day_granularity.2.1 (.dateOnly 2025 2 15) ZoneOracle.utc none
      (by decide),
   daysBetween_day_granularity.2.2.2 ZoneOracle.utc ⟨5, 0⟩ ⟨6, 0⟩ (by decide),
   daysBetween_day_granularity.2.2.1 (.dateOnly 2025 2 15) (.dateOnly 2025 2 17)
      ZoneOracle.utc none ⟨msOfCivil 2025 2 15 0 0 0 0, 0⟩
      ⟨msOfCivil 2025 2 17 0 0 0 0, 0⟩ rfl rfl⟩

/-- Wall-level characterization of `startOfWeekWall`/`endOfWeekWall`: for a
week-start day in `0..6`, the result is a midnight whose weekday is the
week-start day, at most 6 days before (and never after) the input's civil
day, and the end of week is that midnight plus 6 days at 23:59:59.999. -/
theorem startOfWeekWall_char (L ws : Int) (h0 : 0 ≤ ws) (h6 : ws ≤ 6) :
    weekdayOfMs (startOfWeekWall L ws) = ws ∧
    todOfMs (startOfWeekWall L ws) = 0 ∧
    0 ≤ dayNumOfMs L - dayNumOfMs (startOfWeekWall L ws) ∧
    dayNumOfMs L - dayNumOfMs (startOfWeekWall L ws) ≤ 6 ∧
    endOfWeekWall L ws = startOfWeekWall L ws + 6 * msPerDay + (msPerDay - 1) := by
  have hD : (0 : Int) ≤ 86400000 := by decide
  unfold endOfWeekWall endOfDayWall startOfWeekWall startOfDayWall
    weekdayOfMs weekdayOfDays dayNumOfMs todOfMs msPerDay
  simp only [Int.fdiv_eq_ediv _ hD,
    show ∀ a b : Int, a.emod b = a % b from fun _ _ => rfl]
  refine ⟨?_, ?_, ?_, ?_, ?_⟩ <;> split_ifs <;> omega

/-- **C9.**  For every valid date and every week-start day in `0..6`,
`startOfWeek` returns a midnight (00:00:00.000) whose weekday equals the
week-start day, lying at most 6 civil days before the date (possibly the
same day) — the wrap-around rule adds 7 before subtracting when the date's
weekday index is below the week-start day — and `endOfWeek` is that start of
week plus 6 days taken at end of day (23:59:59.999). -/
theorem startOfWeek_endOfWeek_spec :
    ∀ (inp : RawInput) (localZ : ZoneOracle) (tz : Option ZoneOracle)
      (ws : Int) (z : Zoned) (S : Int),
      0 ≤ ws → ws ≤ 6 →
      withTimezone inp localZ tz = some z →
      startOfWeek inp localZ tz ws = some S →
      weekdayOfMs S = ws ∧
      todOfMs S = 0 ∧
      0 ≤ dayNumOfMs (localMs z) - dayNumOfMs S ∧
      dayNumOfMs (localMs z) - dayNumOfMs S ≤ 6 ∧
      endOfWeek inp localZ tz ws = some (S + 6 * msPerDay + (msPerDay - 1)) := by
  intro inp localZ tz ws z S h0 h6 hz hS
  simp only [startOfWeek, hz, Option.map_some', Option.some_inj] at hS
  subst hS
  obtain ⟨c1, c2, c3, c4, c5⟩ := startOfWeekWall_char (localMs z) ws h0 h6
  refine ⟨c1, c2, c3, c4, ?_⟩
  simp only [endOfWeek, hz, Option.map_some', Option.some_inj]
  exact c5

/-- Witness for `startOfWeek_endOfWeek_spec` at `2025-02-15` (a Saturday)
with week start Wednesday (3): the start of week is Wednesday 2025-02-12 at
midnight, 3 days back. -/
theorem startOfWeek_endOfWeek_spec_witness :
    weekdayOfMs (startOfWeekWall (localMs ⟨msOfCivil 2025 2 15 0 0 0 0, 0⟩) 3) = 3 ∧
    todOfMs (startOfWeekWall (localMs ⟨msOfCivil 2025 2 15 0 0 0 0, 0⟩) 3) = 0 ∧
    0 ≤ dayNumOfMs (localMs ⟨msOfCivil 2025 2 15 0 0 0 0, 0⟩)
        - dayNumOfMs (startOfWeekWall (localMs ⟨msOfCivil 2025 2 15 0 0 0 0, 0⟩) 3) ∧
    dayNumOfMs (localMs ⟨msOfCivil 2025 2 15 0 0 0 0, 0⟩)
        - dayNumOfMs (startOfWeekWall (localMs ⟨msOfCivil 2025 2 15 0 0 0 0, 0⟩) 3) ≤ 6 ∧
    endOfWeek (.dateOnly 2025 2 15) ZoneOracle.utc none 3
      = some (startOfWeekWall (localMs ⟨msOfCivil 2025 2 15 0 0 0 0, 0⟩) 3
          + 6 * msPerDay + (msPerDay - 1)) :=
  startOfWeek_endOfWeek_spec (.dateOnly 2025 2 15) ZoneOracle.utc none 3
    ⟨msOfCivil 2025 2 15 0 0 0 0, 0⟩ _ (by decide) (by decide) rfl rfl
